import Mathlib

/-!
# Verification of `github_streak_manager` (streak analysis and backdated commits)

Shallow embedding of `src/github_streak_manager/main.py`.

Modelling conventions:

* A calendar date is an `Int` day number.  The Python code carries dates as
  ISO `YYYY-MM-DD` strings and (a) compares them with `<`/`=` (string order),
  (b) subtracts days with `datetime.timedelta`.  For valid ISO dates the
  lexicographic string order coincides with chronological order, so an `Int`
  day number with the usual order and subtraction is a faithful model.
* `list.sort(key=..., reverse=...)` and `sorted(...)` in Python are stable
  sorts.  `sortByKey` below is a stable insertion sort; any two stable sorts
  for the same key ordering agree, so it computes exactly Python's result
  (including for duplicate keys).
* `random.randint` only perturbs the time-of-day of a commit and the choice
  of message; no claim depends on it, so it is not modelled.
* Filesystem and git effects are modelled by an environment `VcsEnv` saying
  which primitive operations succeed, and by an event trace (`Ev`).
-/

/-- One entry of the fetched contribution calendar:
Python dict `{"date": ..., "count": ...}` built in `analyze_streak`. -/
structure ContribDay where
  date : Int
  count : Nat
deriving DecidableEq, Repr

/-- Insert `d` into `l`, placing it before the first element `x` with
`before d x`; among equal keys the inserted (originally later) element
lands after the existing ones, which is exactly Python's sort stability. -/
def insertBefore (before : ContribDay → ContribDay → Bool) (d : ContribDay) :
    List ContribDay → List ContribDay
  | [] => [d]
  | x :: xs => if before d x then d :: x :: xs else x :: insertBefore before d xs

/-- Stable insertion sort: the unique stable sort for the strict order
`before`, hence equal to Python's `list.sort`/`sorted` output. -/
def sortByKey (before : ContribDay → ContribDay → Bool) (l : List ContribDay) :
    List ContribDay :=
  l.foldl (fun acc d => insertBefore before d acc) []

/-- `contribution_days.sort(key=lambda x: x["date"], reverse=True)`
(main.py line 338): stable sort, newest date first. -/
def sortDesc (l : List ContribDay) : List ContribDay :=
  sortByKey (fun a b => decide (b.date < a.date)) l

/-- `sorted(contribution_days, key=lambda x: x["date"])`
(main.py line 351): stable sort, oldest date first. -/
def sortAsc (l : List ContribDay) : List ContribDay :=
  sortByKey (fun a b => decide (a.date < b.date)) l

/-- The `current_streak` loop (main.py lines 341-346): walk the
descending-sorted list, count while `count > 0`, `break` at the first
zero-count day. -/
def currentLoop : List ContribDay → Nat
  | [] => 0
  | d :: t => if d.count > 0 then currentLoop t + 1 else 0

/-- The `longest_streak` loop (main.py lines 349-358), with explicit state
`(longest, current_longest)`; at the end of the list the running length is
flushed (`longest_streak = max(longest_streak, current_longest)`). -/
def longestLoop : List ContribDay → Nat → Nat → Nat
  | [], longest, cur => max longest cur
  | d :: t, longest, cur =>
    if d.count > 0 then longestLoop t longest (cur + 1)
    else longestLoop t (max longest cur) 0

/-- `last_30_days` (main.py lines 361-365):
`[(today - timedelta(days=i)).isoformat() for i in range(30)]`. -/
def last30 (today : Int) : List Int :=
  (List.range 30).map (fun (i : Nat) => today - (i : Int))

/-- `recent_contribution_dates` (main.py lines 367-369): the dates of the
first 30 entries of the descending-sorted day list (a set in Python; only
membership is used). -/
def recentContributionDates (sorted : List ContribDay) : List Int :=
  (sorted.take 30).map (fun d => d.date)

/-- `missing_dates` (main.py lines 371-374): the window dates not among
`recent_contribution_dates`, in the order of `last_30_days`. -/
def missingDates (today : Int) (sorted : List ContribDay) : List Int :=
  (last30 today).filter (fun d => !((recentContributionDates sorted).contains d))

/-- The dictionary returned by `analyze_streak` (main.py lines 379-385). -/
structure StreakReport where
  current_streak : Nat
  longest_streak : Nat
  missing_dates : List Int
  last_commit_date : Option Int
  contribution_days : List ContribDay
deriving DecidableEq, Repr

/-- `StreakManager.analyze_streak` (main.py lines 292-385), from the point
where the flattened `contribution_days` list is available; `today` is
`datetime.date.today()`.  Note the code first sorts `contribution_days`
descending in place, and the longest-streak pass re-sorts that list
ascending. -/
def analyze_streak (today : Int) (days : List ContribDay) : StreakReport :=
  let sorted := sortDesc days
  { current_streak := currentLoop sorted
    longest_streak := longestLoop (sortAsc sorted) 0 0
    missing_dates := missingDates today sorted
    last_commit_date :=
      match sorted with
      | [] => none
      | d :: _ => if d.count > 0 then some d.date else none
    contribution_days := sorted.take 90 }

/-! ## Commit composer and bulk scheduler -/

/-- Events of the version-control / filesystem trace.  `wrote`/`added` are
recorded when the corresponding step succeeds; `committed`/`pushCall`
record an invocation of `git commit` / `git push` together with its
outcome. -/
inductive Ev where
  | wrote (path : String)
  | added (path : String)
  | committed (msg : String) (ok : Bool)
  | pushCall (ok : Bool)
deriving DecidableEq, Repr

/-- Which primitive git/filesystem operations succeed.  `repoOk` is the
`Repo(repo_path)` constructor, `writeOk` the create-directory/open/write of
a file path (main.py lines 233-237), `addOk` is `repo.git.add`, `commitOk`
is `repo.git.commit` keyed by the commit message, `pushOk` is
`repo.git.push`. -/
structure VcsEnv where
  repoOk : Bool
  writeOk : String → Bool
  addOk : String → Bool
  commitOk : String → Bool
  pushOk : Bool

/-- The `try:` region of `backdate_commit` (main.py lines 212-257) for an
explicitly supplied file path, content and message (the form `bulk_backdate`
uses): open repo, write file, stage, commit with overridden timestamps,
optionally push.  Any step's failure is caught by the `except` and turned
into `false`; steps after the failing one do not run. -/
def backdateCommitTry (env : VcsEnv) (filePath msg : String) (push : Bool) :
    List Ev × Bool :=
  if !env.repoOk then ([], false)
  else if !env.writeOk filePath then ([], false)
  else if !env.addOk filePath then ([Ev.wrote filePath], false)
  else if !env.commitOk msg then
    ([Ev.wrote filePath, Ev.added filePath, Ev.committed msg false], false)
  else if push then
    ([Ev.wrote filePath, Ev.added filePath, Ev.committed msg true,
      Ev.pushCall env.pushOk], env.pushOk)
  else ([Ev.wrote filePath, Ev.added filePath, Ev.committed msg true], true)

/-- `c` is an ASCII decimal digit. -/
def isDigit (c : Char) : Bool := decide ('0' ≤ c) && decide (c ≤ '9')

/-- Decimal value of a digit string. -/
def digitsToNat (s : List Char) : Nat :=
  s.foldl (fun a c => 10 * a + (c.toNat - 48)) 0

/-- A `strptime` numeric field: nonempty, all digits, at most `maxLen` long. -/
def fieldOk (s : List Char) (maxLen : Nat) : Bool :=
  !s.isEmpty && decide (s.length ≤ maxLen) && s.all isDigit

/-- Gregorian leap year, as `datetime` validates it. -/
def leapYear (y : Nat) : Bool :=
  (y % 4 == 0 && y % 100 != 0) || y % 400 == 0

/-- Number of days in month `m` of year `y`. -/
def daysInMonth (y m : Nat) : Nat :=
  if m == 2 then (if leapYear y then 29 else 28)
  else if m == 4 || m == 6 || m == 9 || m == 11 then 30
  else 31

/-- Split a character list at every dash, like Python's `split("-")`
(empty fields are kept and later rejected by `fieldOk`). -/
def splitDash : List Char → List (List Char)
  | [] => [[]]
  | c :: rest =>
    if c == '-' then [] :: splitDash rest
    else
      match splitDash rest with
      | [] => [[c]]
      | g :: gs => (c :: g) :: gs

/-- `datetime.datetime.strptime(date, "%Y-%m-%d")` (main.py line 196):
`some (y, m, d)` for a valid `YYYY-MM-DD` calendar date, `none` when the
string does not match the format or is not a real date (Python raises
`ValueError` in that case).  CPython's `%Y` matches exactly four digits,
`%m`/`%d` match one or two digits with a nonzero value, and the
constructed `datetime` additionally requires `1 ≤ year` and a day that
exists in the given month and year. -/
def strptimeYmd (s : String) : Option (Nat × Nat × Nat) :=
  match splitDash s.toList with
  | [ys, ms, ds] =>
    if decide (ys.length = 4) && ys.all isDigit && fieldOk ms 2 &&
        fieldOk ds 2 then
      let y := digitsToNat ys
      let m := digitsToNat ms
      let d := digitsToNat ds
      if decide (1 ≤ y) && decide (1 ≤ m) && decide (m ≤ 12) &&
          decide (1 ≤ d) && decide (d ≤ daysInMonth y m) then
        some (y, m, d)
      else none
    else none
  | _ => none

/-- `StreakManager.backdate_commit` (main.py lines 174-257) with a string
`date` and explicit message/content/path.  The `strptime` call (line 196)
and the timestamp synthesis happen BEFORE the `try:` block begins, so a
malformed date string raises (`Except.error`) to the caller; from line 212
on, failures are caught and downgraded to the boolean of
`backdateCommitTry`.  The synthesized random time-of-day only feeds the
commit timestamp and is not otherwise observable here. -/
def backdate_commit (env : VcsEnv) (dateStr filePath msg : String)
    (push : Bool) : Except String (List Ev × Bool) :=
  match strptimeYmd dateStr with
  | none => Except.error ("ValueError: time data " ++ dateStr ++
      " does not match format %Y-%m-%d")
  | some _ => Except.ok (backdateCommitTry env filePath msg push)

/-- `file_path = f"streak_updates/{date_str}/{i}.md"` (main.py line 409). -/
def filePathFor (dateStr : String) (i : Nat) : String :=
  "streak_updates/" ++ dateStr ++ "/" ++ toString i ++ ".md"

/-- `commit_message = f"Update for {date_str} ({i+1}/{commit_count})"`
(main.py line 413). -/
def msgFor (dateStr : String) (i commitCount : Nat) : String :=
  "Update for " ++ dateStr ++ " (" ++ toString (i + 1) ++ "/" ++
    toString commitCount ++ ")"

/-- The inner per-date loop of `bulk_backdate` (main.py lines 408-429):
`success = False`, then for each index call `backdate_commit` (never
pushing individual commits) and `break` on the first failure; the loop
variable `success` keeps the last attempted commit's outcome.  A
`ValueError` escaping `backdate_commit` propagates (events performed
before an escaping exception are not claim-relevant and are dropped). -/
def innerGo (env : VcsEnv) (dateStr : String) (commitCount : Nat) :
    List Nat → Bool → Except String (List Ev × Bool)
  | [], success => Except.ok ([], success)
  | i :: rest, _ =>
    match backdate_commit env dateStr (filePathFor dateStr i)
        (msgFor dateStr i commitCount) false with
    | Except.error e => Except.error e
    | Except.ok p =>
      if p.2 then
        match innerGo env dateStr commitCount rest p.2 with
        | Except.error e => Except.error e
        | Except.ok q => Except.ok (p.1 ++ q.1, q.2)
      else Except.ok (p.1, false)

/-- The outer loop of `bulk_backdate` (main.py lines 405-441): per date run
the inner loop, then — still inside the per-date loop — `if success and
push:` open the repo and push, downgrading a push failure (or a failure to
open the repo) to `success = False`; record the date's success. -/
def bulkGo (env : VcsEnv) (commitCount : Nat) (push : Bool) :
    List String → Except String (List Ev × List (String × Bool))
  | [] => Except.ok ([], [])
  | d :: rest =>
    match innerGo env d commitCount (List.range commitCount) false with
    | Except.error e => Except.error e
    | Except.ok p =>
      let step : List Ev × Bool :=
        if p.2 && push then
          if !env.repoOk then (p.1, false)
          else (p.1 ++ [Ev.pushCall env.pushOk], env.pushOk)
        else (p.1, p.2)
      match bulkGo env commitCount push rest with
      | Except.error e => Except.error e
      | Except.ok q => Except.ok (step.1 ++ q.1, (d, step.2) :: q.2)

/-- `StreakManager.bulk_backdate` (main.py lines 387-441).  The returned
mapping is kept as an association list in date order (the Python dict is
keyed by the date strings, which are distinct in every use here). -/
def bulk_backdate (env : VcsEnv) (dates : List String) (commitCount : Nat)
    (push : Bool) : Except String (List Ev × List (String × Bool)) :=
  bulkGo env commitCount push dates

/-! ## Helper lemmas: current streak -/

/-- The current-streak loop returns `N` when the first `N` entries are
positive and the loop then stops (list exhausted or zero-count entry). -/
theorem currentLoop_spec (l : List ContribDay) (N : Nat)
    (hpos : ∀ d ∈ l.take N, 0 < d.count)
    (hle : N ≤ l.length)
    (hstop : ∀ h : N < l.length, (l.get ⟨N, h⟩).count = 0) :
    currentLoop l = N := by
  induction l generalizing N with
  | nil =>
    simp only [List.length_nil, Nat.le_zero] at hle
    simp [currentLoop, hle]
  | cons d t ih =>
    cases N with
    | zero =>
      have h0 : 0 < (d :: t).length := by simp
      have hz := hstop h0
      simp only [List.get] at hz
      simp [currentLoop, hz]
    | succ n =>
      have hd : 0 < d.count := hpos d (by simp [List.take_succ_cons])
      have ht : currentLoop t = n := by
        apply ih
        · intro x hx
          exact hpos x (by simp [List.take_succ_cons, hx])
        · simpa [Nat.succ_le_succ_iff] using hle
        · intro h
          have := hstop (by simpa [Nat.succ_lt_succ_iff] using h)
          simpa [List.get_cons_succ] using this
      simp [currentLoop, hd, ht]

/-! ## Helper lemmas: longest streak -/

/-- `d` has a positive contribution count. -/
def posDay (d : ContribDay) : Bool := decide (0 < d.count)

/-- The longest-streak loop run from state `(0, c)`. -/
def longestFrom : List ContribDay → Nat → Nat
  | [], c => c
  | d :: t, c =>
    if 0 < d.count then longestFrom t (c + 1) else max c (longestFrom t 0)

theorem longestLoop_eq_from (l : List ContribDay) :
    ∀ L c, longestLoop l L c = max L (longestFrom l c) := by
  induction l with
  | nil => intro L c; simp [longestLoop, longestFrom]
  | cons d t ih =>
    intro L c
    by_cases h : 0 < d.count
    · simp only [longestLoop, longestFrom, if_pos h]
      exact ih L (c + 1)
    · simp only [longestLoop, longestFrom, if_neg h]
      rw [ih]
      omega

/-- Length of the leading run of positive-count entries. -/
def leadRun (l : List ContribDay) : Nat := (l.takeWhile posDay).length

/-- Reference definition following the spec: the maximum, over all
suffixes, of the length of the leading positive run — i.e. the maximum
length of a run of consecutive positive-count entries. -/
def specMaxRunLen : List ContribDay → Nat
  | [] => 0
  | d :: t => max (leadRun (d :: t)) (specMaxRunLen t)

theorem leadRun_cons_pos (d : ContribDay) (t : List ContribDay)
    (h : 0 < d.count) : leadRun (d :: t) = leadRun t + 1 := by
  simp [leadRun, List.takeWhile_cons, posDay, h]

theorem leadRun_cons_zero (d : ContribDay) (t : List ContribDay)
    (h : ¬ 0 < d.count) : leadRun (d :: t) = 0 := by
  simp [leadRun, List.takeWhile_cons, posDay, h]

theorem specMaxRunLen_dropWhile (l : List ContribDay) :
    specMaxRunLen l = max (leadRun l) (specMaxRunLen (l.dropWhile posDay)) := by
  induction l with
  | nil => simp [specMaxRunLen, leadRun]
  | cons d t ih =>
    by_cases h : 0 < d.count
    · have hp : posDay d = true := by simp [posDay, h]
      rw [List.dropWhile_cons_of_pos hp,
        show specMaxRunLen (d :: t) =
          max (leadRun (d :: t)) (specMaxRunLen t) from rfl,
        ih, leadRun_cons_pos d t h]
      omega
    · have hp : ¬ posDay d = true := by simp [posDay, h]
      rw [List.dropWhile_cons_of_neg hp, leadRun_cons_zero d t h]
      omega

theorem longestFrom_eq (l : List ContribDay) :
    ∀ c, longestFrom l c = max (c + leadRun l) (specMaxRunLen (l.dropWhile posDay)) := by
  induction l with
  | nil => intro c; simp [longestFrom, leadRun, specMaxRunLen]
  | cons d t ih =>
    intro c
    by_cases h : 0 < d.count
    · have hp : posDay d = true := by simp [posDay, h]
      simp only [longestFrom, if_pos h]
      rw [ih, leadRun_cons_pos d t h, List.dropWhile_cons_of_pos hp]
      omega
    · have hp : ¬ posDay d = true := by simp [posDay, h]
      simp only [longestFrom, if_neg h]
      rw [ih, leadRun_cons_zero d t h, List.dropWhile_cons_of_neg hp]
      rw [show specMaxRunLen (d :: t) =
        max (leadRun (d :: t)) (specMaxRunLen t) from rfl,
        leadRun_cons_zero d t h, specMaxRunLen_dropWhile t]
      omega

/-- The longest-streak loop computes exactly the maximal positive-run
length. -/
theorem longestLoop_eq_specMaxRunLen (l : List ContribDay) :
    longestLoop l 0 0 = specMaxRunLen l := by
  rw [longestLoop_eq_from, longestFrom_eq, specMaxRunLen_dropWhile l]
  omega

theorem length_le_leadRun_append (r s : List ContribDay)
    (h : ∀ d ∈ r, 0 < d.count) : r.length ≤ leadRun (r ++ s) := by
  induction r with
  | nil => simp
  | cons d t ih =>
    have hd : 0 < d.count := h d (by simp)
    rw [List.cons_append, leadRun_cons_pos d (t ++ s) hd]
    have := ih (fun x hx => h x (by simp [hx]))
    simpa using this

theorem leadRun_le_specMaxRunLen (l : List ContribDay) :
    leadRun l ≤ specMaxRunLen l := by
  cases l with
  | nil => simp [leadRun, specMaxRunLen]
  | cons d t =>
    show leadRun (d :: t) ≤ max (leadRun (d :: t)) (specMaxRunLen t)
    omega

theorem specMaxRunLen_suffix_le (pre l : List ContribDay) :
    specMaxRunLen l ≤ specMaxRunLen (pre ++ l) := by
  induction pre with
  | nil => simp
  | cons x pre ih =>
    rw [List.cons_append]
    calc specMaxRunLen l ≤ specMaxRunLen (pre ++ l) := ih
      _ ≤ max (leadRun (x :: (pre ++ l))) (specMaxRunLen (pre ++ l)) :=
        Nat.le_max_right _ _
      _ = specMaxRunLen (x :: (pre ++ l)) := rfl

/-- Every all-positive contiguous infix has length at most
`specMaxRunLen`. -/
theorem infix_length_le_specMaxRunLen (r l : List ContribDay)
    (hinf : List.IsInfix r l) (hpos : ∀ d ∈ r, 0 < d.count) :
    r.length ≤ specMaxRunLen l := by
  obtain ⟨pre, suf, rfl⟩ := hinf
  calc r.length ≤ leadRun (r ++ suf) := length_le_leadRun_append r suf hpos
    _ ≤ specMaxRunLen (r ++ suf) := leadRun_le_specMaxRunLen _
    _ ≤ specMaxRunLen (pre ++ (r ++ suf)) := specMaxRunLen_suffix_le _ _
    _ = specMaxRunLen (pre ++ r ++ suf) := by rw [List.append_assoc]

/-! ## Helper lemmas: missing dates -/

theorem pairwise_gt_last30 (today : Int) :
    List.Pairwise (· > ·) (last30 today) := by
  unfold last30
  rw [List.pairwise_map]
  refine (List.pairwise_lt_range 30).imp ?_
  intro a b hab
  show today - (a : Int) > today - (b : Int)
  omega

theorem mem_last30_bounds (today D : Int) (h : D ∈ last30 today) :
    today - 29 ≤ D ∧ D ≤ today := by
  unfold last30 at h
  rw [List.mem_map] at h
  obtain ⟨i, hi, hD⟩ := h
  rw [List.mem_range] at hi
  omega

/-! ## Claims about the streak analyzer -/

/-- **C1 (counterexample).**  The claim says `missing_dates` is sorted
ascending; on the empty calendar with `today = 0` the returned list is
`[0, -1, ..., -29]`, which is not ascending. -/
theorem missing_dates_not_ascending :
    ¬ List.Pairwise (· ≤ ·) ((analyze_streak 0 []).missing_dates) := by
  decide

/-- **C1 (amended).**  `missing_dates` is sorted strictly DESCENDING
(today first), and every element lies within the trailing 30-day window
ending today. -/
theorem missing_dates_desc_and_in_window (today : Int) (days : List ContribDay) :
    List.Pairwise (· > ·) ((analyze_streak today days).missing_dates) ∧
    ∀ D ∈ (analyze_streak today days).missing_dates,
      today - 29 ≤ D ∧ D ≤ today := by
  constructor
  · show List.Pairwise (· > ·) (missingDates today (sortDesc days))
    exact (pairwise_gt_last30 today).filter _
  · intro D hD
    have hD' : D ∈ (last30 today).filter
        (fun d => !((recentContributionDates (sortDesc days)).contains d)) := hD
    exact mem_last30_bounds today D (List.mem_filter.mp hD').1

/-- Witness for C1 (amended) at `today = 0`, empty calendar. -/
theorem missing_dates_desc_and_in_window_witness :
    List.Pairwise (· > ·) ((analyze_streak 0 []).missing_dates) ∧
    ((0 : Int) - 29 ≤ 0 ∧ (0 : Int) ≤ 0) := by
  refine ⟨(missing_dates_desc_and_in_window 0 []).1, ?_⟩
  exact (missing_dates_desc_and_in_window 0 []).2 0 (by decide)

/-- **C2.**  `longest_streak ≥ current_streak` is indeed not guaranteed:
on the day sequence `[(1,1), (1,0), (2,1), (2,1)]` (which `analyze_streak`
accepts as-is — nothing deduplicates dates), the stable descending sort
puts the counts in order `1,1,1,0` so `current_streak = 3`, while the
stable ascending re-sort yields counts `1,0,1,1`, whose longest run is 2. -/
theorem current_streak_can_exceed_longest_streak :
    (analyze_streak 2 [⟨1, 1⟩, ⟨1, 0⟩, ⟨2, 1⟩, ⟨2, 1⟩]).longest_streak <
    (analyze_streak 2 [⟨1, 1⟩, ⟨1, 0⟩, ⟨2, 1⟩, ⟨2, 1⟩]).current_streak := by
  decide

/-- **C3.**  If the `N` most recent entries of the descending-sorted day
list all have positive count and the `(N+1)`-th is zero-count or absent,
then `current_streak = N`: the loop counts from the most recent day while
`count > 0` and stops at the first zero-count day. -/
theorem current_streak_counts_trailing_run (today : Int)
    (days : List ContribDay) (N : Nat)
    (hpos : ∀ d ∈ (sortDesc days).take N, 0 < d.count)
    (hle : N ≤ (sortDesc days).length)
    (hstop : ∀ h : N < (sortDesc days).length,
      ((sortDesc days).get ⟨N, h⟩).count = 0) :
    (analyze_streak today days).current_streak = N :=
  currentLoop_spec (sortDesc days) N hpos hle hstop

/-- Witness for C3: days `(1,0), (2,1), (3,2)` have a trailing run of 2. -/
theorem current_streak_counts_trailing_run_witness :
    (analyze_streak 3 [⟨1, 0⟩, ⟨2, 1⟩, ⟨3, 2⟩]).current_streak = 2 := by
  apply current_streak_counts_trailing_run 3 [⟨1, 0⟩, ⟨2, 1⟩, ⟨3, 2⟩] 2
  · decide
  · decide
  · intro h
    rfl

/-- **C4.**  `longest_streak` equals the maximum length of a run of
consecutive positive-count entries of the ascending ordering (final run
included), and in particular is at least the length of every all-positive
contiguous infix of that ordering. -/
theorem longest_streak_eq_max_run (today : Int) (days : List ContribDay) :
    (analyze_streak today days).longest_streak =
      specMaxRunLen (sortAsc (sortDesc days)) ∧
    ∀ r, List.IsInfix r (sortAsc (sortDesc days)) →
      (∀ d ∈ r, 0 < d.count) →
      r.length ≤ (analyze_streak today days).longest_streak := by
  have h1 : (analyze_streak today days).longest_streak =
      specMaxRunLen (sortAsc (sortDesc days)) :=
    longestLoop_eq_specMaxRunLen (sortAsc (sortDesc days))
  refine ⟨h1, ?_⟩
  intro r hinf hpos
  rw [h1]
  exact infix_length_le_specMaxRunLen r _ hinf hpos

/-- Witness for C4 on days `(1,1), (2,0)` with the all-positive infix
`[(1,1)]`. -/
theorem longest_streak_eq_max_run_witness :
    (analyze_streak 2 [⟨1, 1⟩, ⟨2, 0⟩]).longest_streak =
      specMaxRunLen (sortAsc (sortDesc [⟨1, 1⟩, ⟨2, 0⟩])) ∧
    ([(⟨1, 1⟩ : ContribDay)]).length ≤
      (analyze_streak 2 [⟨1, 1⟩, ⟨2, 0⟩]).longest_streak := by
  refine ⟨(longest_streak_eq_max_run 2 [⟨1, 1⟩, ⟨2, 0⟩]).1, ?_⟩
  exact (longest_streak_eq_max_run 2 [⟨1, 1⟩, ⟨2, 0⟩]).2 [⟨1, 1⟩]
    ⟨[], [⟨2, 0⟩], by decide⟩ (by decide)

/-- **C5.**  A window date `D` is in `missing_dates` iff `D` is not among
the dates of the 30 most recent entries of the descending-sorted day list;
a day present in that slice with an explicit zero count is never flagged
missing. -/
theorem missing_iff_absent_from_recent_slice (today : Int)
    (days : List ContribDay) (D : Int) (hD : D ∈ last30 today) :
    (D ∈ (analyze_streak today days).missing_dates ↔
      D ∉ recentContributionDates (sortDesc days)) ∧
    ∀ d ∈ (sortDesc days).take 30, d.count = 0 →
      d.date ∉ (analyze_streak today days).missing_dates := by
  have key : ∀ x : Int, x ∈ (analyze_streak today days).missing_dates ↔
      x ∈ last30 today ∧ x ∉ recentContributionDates (sortDesc days) := by
    intro x
    show x ∈ (last30 today).filter
      (fun d => !((recentContributionDates (sortDesc days)).contains d)) ↔ _
    rw [List.mem_filter]
    simp [List.elem_iff]
  constructor
  · rw [key D]
    simp [hD]
  · intro d hdtake hzero hmem
    exact ((key d.date).mp hmem).2 (List.mem_map_of_mem _ hdtake)

/-- Witness for C5 at `today = 0` with the single day `(0, 0)`: date `0`
is present in the recent slice with zero count, so it is not missing. -/
theorem missing_iff_absent_from_recent_slice_witness :
    ((0 : Int) ∈ (analyze_streak 0 [⟨0, 0⟩]).missing_dates ↔
      (0 : Int) ∉ recentContributionDates (sortDesc [⟨0, 0⟩])) ∧
    (0 : Int) ∉ (analyze_streak 0 [⟨0, 0⟩]).missing_dates := by
  have h := missing_iff_absent_from_recent_slice 0 [⟨0, 0⟩] 0 (by decide)
  exact ⟨h.1, h.2 ⟨0, 0⟩ (by decide) rfl⟩

/-- The §8 scenario calendar: the last 5 days with counts `[3,0,2,1,0]`
listed oldest to newest (`today = 5`). -/
def scenarioDays : List ContribDay := [⟨1, 3⟩, ⟨2, 0⟩, ⟨3, 2⟩, ⟨4, 1⟩, ⟨5, 0⟩]

/-- **C6 (counterexample).**  On that calendar `current_streak` is not 1. -/
theorem scenario_current_streak_not_one :
    (analyze_streak 5 scenarioDays).current_streak ≠ 1 := by
  decide

/-- **C6 (amended).**  On counts `[3,0,2,1,0]` oldest-to-newest the most
recent day has count 0, so the walk stops immediately: `current_streak = 0`. -/
theorem scenario_current_streak_zero :
    (analyze_streak 5 scenarioDays).current_streak = 0 := by
  decide

/-! ## Helper definitions and lemmas: bulk scheduler behaviour -/

/-- Success of a single non-pushing `backdate_commit` attempt for commit
`i` of `dateStr`: all four steps of the `try:` region succeed. -/
def attemptOk (env : VcsEnv) (dateStr : String) (n i : Nat) : Bool :=
  env.repoOk && env.writeOk (filePathFor dateStr i) &&
    env.addOk (filePathFor dateStr i) && env.commitOk (msgFor dateStr i n)

/-- Reference definition following the spec: process indices in order and
stop at the first failed one, keeping the failing index (later indices are
skipped). -/
def attemptedIdxs (ok : Nat → Bool) : List Nat → List Nat
  | [] => []
  | i :: rest => if ok i then i :: attemptedIdxs ok rest else [i]

/-- The event trace of a single non-pushing commit attempt. -/
def attemptEvs (env : VcsEnv) (dateStr : String) (n i : Nat) : List Ev :=
  (backdateCommitTry env (filePathFor dateStr i) (msgFor dateStr i n) false).1

/-- All events produced by one date's inner loop. -/
def innerEvs (env : VcsEnv) (dateStr : String) (n : Nat) : List Ev :=
  (attemptedIdxs (attemptOk env dateStr n) (List.range n)).flatMap
    (attemptEvs env dateStr n)

/-- Reference definition following the spec: the outcome of the LAST
attempted index (`acc` when nothing was attempted). -/
def lastAttemptOk (ok : Nat → Bool) (idxs : List Nat) (acc : Bool) : Bool :=
  match (attemptedIdxs ok idxs).getLast? with
  | none => acc
  | some j => ok j

/-- The success value one date's inner loop leaves in `success`. -/
def innerSucc (env : VcsEnv) (dateStr : String) (n : Nat) : Bool :=
  lastAttemptOk (attemptOk env dateStr n) (List.range n) false

/-- Is the event an invocation of `git push`? -/
def isPushEv : Ev → Bool
  | Ev.pushCall _ => true
  | _ => false

/-- Is the event a successful file write belonging to one of `dateStr`'s
`n` per-commit files? -/
def isWriteFor (dateStr : String) (n : Nat) : Ev → Bool
  | Ev.wrote p => (List.range n).any (fun i => p == filePathFor dateStr i)
  | _ => false

theorem backdateCommitTry_snd (env : VcsEnv) (p m : String) :
    (backdateCommitTry env p m false).2 =
      (env.repoOk && env.writeOk p && env.addOk p && env.commitOk m) := by
  unfold backdateCommitTry
  cases hr : env.repoOk <;> cases hw : env.writeOk p <;>
    cases ha : env.addOk p <;> cases hc : env.commitOk m <;> simp

theorem attempt_snd (env : VcsEnv) (dateStr : String) (n i : Nat) :
    (backdateCommitTry env (filePathFor dateStr i)
      (msgFor dateStr i n) false).2 = attemptOk env dateStr n i :=
  backdateCommitTry_snd env _ _

theorem lastAttemptOk_cons_pos (ok : Nat → Bool) (i : Nat) (rest : List Nat)
    (acc : Bool) (h : ok i = true) :
    lastAttemptOk ok (i :: rest) acc = lastAttemptOk ok rest true := by
  unfold lastAttemptOk
  simp only [attemptedIdxs, h, if_true]
  cases hA : attemptedIdxs ok rest with
  | nil => simp [h]
  | cons a A =>
    rw [List.getLast?_cons_cons]
    cases hl : (a :: A).getLast? with
    | none => exact absurd (List.getLast?_eq_none_iff.mp hl) (by simp)
    | some j => rfl

theorem lastAttemptOk_cons_neg (ok : Nat → Bool) (i : Nat) (rest : List Nat)
    (acc : Bool) (h : ¬ ok i = true) :
    lastAttemptOk ok (i :: rest) acc = ok i := by
  unfold lastAttemptOk
  simp [attemptedIdxs, h]

/-- The inner per-date loop attempts exactly the indices up to and
including the first failing one, concatenates their traces in order, and
ends with the success of the last attempted commit. -/
theorem innerGo_spec (env : VcsEnv) (dateStr : String) (n : Nat)
    (ymd : Nat × Nat × Nat) (hp : strptimeYmd dateStr = some ymd) :
    ∀ (idxs : List Nat) (acc : Bool),
      innerGo env dateStr n idxs acc =
        Except.ok
          ((attemptedIdxs (attemptOk env dateStr n) idxs).flatMap
            (attemptEvs env dateStr n),
           lastAttemptOk (attemptOk env dateStr n) idxs acc) := by
  intro idxs
  induction idxs with
  | nil =>
    intro acc
    simp [innerGo, attemptedIdxs, lastAttemptOk]
  | cons i rest ih =>
    intro acc
    have hbc : backdate_commit env dateStr (filePathFor dateStr i)
        (msgFor dateStr i n) false =
        Except.ok (backdateCommitTry env (filePathFor dateStr i)
          (msgFor dateStr i n) false) := by
      simp [backdate_commit, hp]
    simp only [innerGo, hbc]
    by_cases hok : attemptOk env dateStr n i = true
    · rw [if_pos (by rw [attempt_snd, hok]), attempt_snd, hok, ih true,
        lastAttemptOk_cons_pos _ _ _ _ hok]
      simp only [attemptedIdxs, hok, if_true, List.flatMap_cons]
      rfl
    · rw [if_neg (by rw [attempt_snd]; exact hok),
        lastAttemptOk_cons_neg _ _ _ _ hok]
      have hfalse : attemptOk env dateStr n i = false :=
        Bool.not_eq_true _ |>.mp hok
      rw [hfalse]
      simp only [attemptedIdxs, hfalse, Bool.false_eq_true, if_false,
        List.flatMap_cons, List.flatMap_nil, List.append_nil]
      rfl

/-- Events of one date's processing in a pushing `bulk_backdate` run: the
date's commit attempts, then — only if every attempt succeeded and the
repo opens — a single push call at the end. -/
def dateBlock (env : VcsEnv) (n : Nat) (dateStr : String) : List Ev :=
  if innerSucc env dateStr n && env.repoOk then
    innerEvs env dateStr n ++ [Ev.pushCall env.pushOk]
  else innerEvs env dateStr n

/-- The success recorded for one date in a pushing `bulk_backdate` run. -/
def dateResult (env : VcsEnv) (n : Nat) (dateStr : String) : Bool :=
  if innerSucc env dateStr n then
    (if env.repoOk then env.pushOk else false)
  else false

/-- A pushing `bulk_backdate` run decomposes into per-date blocks, and the
result mapping records each date's `dateResult`. -/
theorem bulkGo_push_spec (env : VcsEnv) (n : Nat) :
    ∀ dates : List String, (∀ d ∈ dates, ∃ ymd, strptimeYmd d = some ymd) →
      bulkGo env n true dates =
        Except.ok (dates.flatMap (dateBlock env n),
          dates.map (fun d => (d, dateResult env n d))) := by
  intro dates
  induction dates with
  | nil => intro _; simp [bulkGo]
  | cons d rest ih =>
    intro hp
    obtain ⟨ymd, hymd⟩ := hp d (by simp)
    have hin : innerGo env d n (List.range n) false =
        Except.ok (innerEvs env d n, innerSucc env d n) :=
      innerGo_spec env d n ymd hymd (List.range n) false
    simp only [bulkGo, hin, ih (fun x hx => hp x (by simp [hx])),
      List.flatMap_cons, List.map_cons]
    by_cases hs : innerSucc env d n = true
    · by_cases hr : env.repoOk = true
      · simp [hs, hr, dateBlock, dateResult]
      · have hr' : env.repoOk = false := Bool.not_eq_true _ |>.mp hr
        simp [hs, hr', dateBlock, dateResult]
    · have hs' : innerSucc env d n = false := Bool.not_eq_true _ |>.mp hs
      simp [hs', dateBlock, dateResult]

theorem countP_isPushEv_try (env : VcsEnv) (p m : String) :
    ((backdateCommitTry env p m false).1).countP isPushEv = 0 := by
  unfold backdateCommitTry
  cases hr : env.repoOk <;> cases hw : env.writeOk p <;>
    cases ha : env.addOk p <;> cases hc : env.commitOk m <;>
      simp [isPushEv, List.countP_cons]

theorem countP_isPushEv_innerEvs (env : VcsEnv) (dateStr : String) (n : Nat) :
    (innerEvs env dateStr n).countP isPushEv = 0 := by
  unfold innerEvs
  rw [List.countP_eq_zero]
  intro e he
  rw [List.mem_flatMap] at he
  obtain ⟨i, hi, he⟩ := he
  have he' : e ∈ (backdateCommitTry env (filePathFor dateStr i)
      (msgFor dateStr i n) false).1 := he
  have h0 := countP_isPushEv_try env (filePathFor dateStr i) (msgFor dateStr i n)
  rw [List.countP_eq_zero] at h0
  exact h0 e he'

theorem countP_isPushEv_dateBlock (env : VcsEnv) (n : Nat) (dateStr : String) :
    (dateBlock env n dateStr).countP isPushEv =
      if innerSucc env dateStr n && env.repoOk then 1 else 0 := by
  unfold dateBlock
  by_cases h : (innerSucc env dateStr n && env.repoOk) = true
  · rw [if_pos h, if_pos h, List.countP_append, countP_isPushEv_innerEvs]
    simp [isPushEv, List.countP_cons]
  · rw [if_neg h, if_neg h, countP_isPushEv_innerEvs]

/-! ## Claims about the bulk scheduler and commit composer -/

/-- An environment in which every git/filesystem operation succeeds. -/
def envAll : VcsEnv :=
  { repoOk := true, writeOk := fun _ => true, addOk := fun _ => true,
    commitOk := fun _ => true, pushOk := true }

/-- **C7 (counterexample).**  Two dates, all commits succeeding, push
requested: the invocation pushes TWICE (once per date), not exactly once
per repository. -/
theorem bulk_pushes_twice_for_two_dates :
    (bulk_backdate envAll ["2024-01-01", "2024-01-02"] 1 true).map
      (fun r => r.1.countP isPushEv) = Except.ok 2 := by
  rfl

/-- **C7 (amended).**  In `bulk_backdate` with push requested, the push
happens once per DATE whose commits all succeeded — immediately after that
date's commits, never per individual commit (the per-attempt traces
contain no push call) — so an invocation with several successful dates
pushes several times. -/
theorem bulk_push_once_per_successful_date (env : VcsEnv) (n : Nat)
    (dates : List String)
    (hp : ∀ d ∈ dates, ∃ ymd, strptimeYmd d = some ymd) :
    bulk_backdate env dates n true =
      Except.ok (dates.flatMap (dateBlock env n),
        dates.map (fun d => (d, dateResult env n d))) ∧
    (∀ dateStr, (innerEvs env dateStr n).countP isPushEv = 0) ∧
    (∀ dateStr, (dateBlock env n dateStr).countP isPushEv =
      if innerSucc env dateStr n && env.repoOk then 1 else 0) :=
  ⟨bulkGo_push_spec env n dates hp,
   fun dateStr => countP_isPushEv_innerEvs env dateStr n,
   fun dateStr => countP_isPushEv_dateBlock env n dateStr⟩

/-- Witness for C7 (amended) at a single date with every operation
succeeding. -/
theorem bulk_push_once_per_successful_date_witness :
    bulk_backdate envAll ["2024-01-01"] 1 true =
      Except.ok ((["2024-01-01"] : List String).flatMap (dateBlock envAll 1),
        [("2024-01-01", dateResult envAll 1 "2024-01-01")]) ∧
    (innerEvs envAll "2024-01-01" 1).countP isPushEv = 0 ∧
    (dateBlock envAll 1 "2024-01-01").countP isPushEv =
      (if innerSucc envAll "2024-01-01" 1 && envAll.repoOk then 1 else 0) := by
  have h := bulk_push_once_per_successful_date envAll 1 ["2024-01-01"]
    (fun d hd => by
      rw [List.mem_singleton] at hd
      exact ⟨(2024, 1, 1), by rw [hd]; rfl⟩)
  exact ⟨h.1, h.2.1 "2024-01-01", h.2.2 "2024-01-01"⟩

/-- The forced-failure environment of the §8 scenario: the second commit
of the first date (message `Update for 2024-01-01 (2/2)`) fails at the
`git commit` step; everything else succeeds. -/
def env8 : VcsEnv :=
  { repoOk := true, writeOk := fun _ => true, addOk := fun _ => true,
    commitOk := fun m => !(m == msgFor "2024-01-01" 1 2), pushOk := true }

/-- The full event trace of the §8 scenario run. -/
def trace8 : List Ev :=
  [Ev.wrote "streak_updates/2024-01-01/0.md",
   Ev.added "streak_updates/2024-01-01/0.md",
   Ev.committed "Update for 2024-01-01 (1/2)" true,
   Ev.wrote "streak_updates/2024-01-01/1.md",
   Ev.added "streak_updates/2024-01-01/1.md",
   Ev.committed "Update for 2024-01-01 (2/2)" false,
   Ev.wrote "streak_updates/2024-01-02/0.md",
   Ev.added "streak_updates/2024-01-02/0.md",
   Ev.committed "Update for 2024-01-02 (1/2)" true,
   Ev.wrote "streak_updates/2024-01-02/1.md",
   Ev.added "streak_updates/2024-01-02/1.md",
   Ev.committed "Update for 2024-01-02 (2/2)" true]

/-- **C8 (counterexample).**  In the §8 scenario TWO files are written for
the first date, not exactly one: the failing second attempt writes its
file before its `git commit` fails (no rollback). -/
theorem bulk_scenario_two_files_written :
    (bulk_backdate env8 ["2024-01-01", "2024-01-02"] 2 false).map
      (fun r => r.1.countP (isWriteFor "2024-01-01" 2)) = Except.ok 2 := by
  rfl

/-- **C8 (amended).**  The inner per-date loop stops on the first failed
commit attempt (later attempts are skipped: exactly the indices of
`attemptedIdxs` run) and the recorded success is that of the last
attempted commit (`lastAttemptOk`); in the §8 scenario the result mapping
is `{2024-01-01: false, 2024-01-02: true}`, with TWO files written for the
first date (the failing attempt's file is written before its commit
fails). -/
theorem bulk_stops_on_first_failure (env : VcsEnv) (dateStr : String)
    (n : Nat) (ymd : Nat × Nat × Nat) (hp : strptimeYmd dateStr = some ymd) :
    (innerGo env dateStr n (List.range n) false =
      Except.ok (innerEvs env dateStr n, innerSucc env dateStr n)) ∧
    bulk_backdate env8 ["2024-01-01", "2024-01-02"] 2 false =
      Except.ok (trace8, [("2024-01-01", false), ("2024-01-02", true)]) ∧
    trace8.countP (isWriteFor "2024-01-01" 2) = 2 :=
  ⟨innerGo_spec env dateStr n ymd hp (List.range n) false, by rfl, by rfl⟩

/-- Witness for C8 (amended), instantiating the general clause in the §8
environment for the first date. -/
theorem bulk_stops_on_first_failure_witness :
    (innerGo env8 "2024-01-01" 2 (List.range 2) false =
      Except.ok (innerEvs env8 "2024-01-01" 2, innerSucc env8 "2024-01-01" 2)) ∧
    trace8.countP (isWriteFor "2024-01-01" 2) = 2 := by
  have h := bulk_stops_on_first_failure env8 "2024-01-01" 2 (2024, 1, 1) rfl
  exact ⟨h.1, h.2.2⟩

/-- An environment in which `git commit` always fails but every other
operation succeeds. -/
def envCommitFail : VcsEnv :=
  { repoOk := true, writeOk := fun _ => true, addOk := fun _ => true,
    commitOk := fun _ => false, pushOk := true }

/-- **C9.**  When any step of the `try:` region fails (repo open, file
write, staging, commit, or a requested push), `backdate_commit` on a
well-formed date returns `Except.ok` — no exception reaches the caller —
with the boolean result `false`. -/
theorem backdate_commit_failure_returns_false (env : VcsEnv)
    (dateStr filePath msg : String) (push : Bool) (ymd : Nat × Nat × Nat)
    (hp : strptimeYmd dateStr = some ymd)
    (hfail : env.repoOk = false ∨ env.writeOk filePath = false ∨
      env.addOk filePath = false ∨ env.commitOk msg = false ∨
      (push = true ∧ env.pushOk = false)) :
    backdate_commit env dateStr filePath msg push =
      Except.ok (backdateCommitTry env filePath msg push) ∧
    (backdateCommitTry env filePath msg push).2 = false := by
  refine ⟨by simp [backdate_commit, hp], ?_⟩
  unfold backdateCommitTry
  cases hr : env.repoOk <;> cases hw : env.writeOk filePath <;>
    cases ha : env.addOk filePath <;> cases hc : env.commitOk msg <;>
    cases hpu : env.pushOk <;> cases push <;> simp_all

/-- Witness for C9: a failing `git commit` yields `Except.ok` with result
`false`. -/
theorem backdate_commit_failure_returns_false_witness :
    backdate_commit envCommitFail "2024-01-01" "README.md"
      "Update README.md" false =
      Except.ok (backdateCommitTry envCommitFail "README.md"
        "Update README.md" false) ∧
    (backdateCommitTry envCommitFail "README.md" "Update README.md" false).2 =
      false :=
  backdate_commit_failure_returns_false envCommitFail "2024-01-01" "README.md"
    "Update README.md" false (2024, 1, 1) rfl
    (Or.inr (Or.inr (Or.inr (Or.inl rfl))))

/-- **C10.**  A date string that `strptime` rejects makes
`backdate_commit` raise to its caller (`Except.error`), because the
parsing happens before the `try:` region begins — it does not return
`false`. -/
theorem backdate_commit_bad_date_raises (env : VcsEnv)
    (dateStr filePath msg : String) (push : Bool)
    (hbad : strptimeYmd dateStr = none) :
    backdate_commit env dateStr filePath msg push =
      Except.error ("ValueError: time data " ++ dateStr ++
        " does not match format %Y-%m-%d") := by
  simp [backdate_commit, hbad]

/-- Witness for C10 at the malformed date string `not-a-date`. -/
theorem backdate_commit_bad_date_raises_witness :
    backdate_commit envAll "not-a-date" "README.md" "Update README.md" false =
      Except.error ("ValueError: time data " ++ "not-a-date" ++
        " does not match format %Y-%m-%d") :=
  backdate_commit_bad_date_raises envAll "not-a-date" "README.md"
    "Update README.md" false rfl
